import Mathlib

/-!
Shallow embedding of the SPT-LiveFleaPrices mod (`src/mod.ts`).

The mod periodically fetches a remote flea-market price table, persists it
to `config/prices.json`, records a `nextUpdate` timestamp in
`config/config.json`, and merges the fetched prices into the host's live
price table, clamping each price to `basePrice * maxIncreaseMult`.

Modelling choices:
* JS numbers are modelled by `Rat` (prices, multipliers) and `Int`
  (epoch-second timestamps); item identifiers are `String`s.
* The host tables are modelled as in `updatePrices`:
  `priceTable : String → Option Rat` (a JS record, absent keys read as
  `undefined`), `itemTable : String → Bool` (only truthiness of
  `itemTable[itemId]` is consulted; entries are objects, hence truthy
  exactly when present), and `handbookTable.Items : List HandbookItem`.
* `FetchedPrices` (the parsed `prices.json` payload) is an association
  list `List (String × Rat)`; a JS record has pairwise-distinct keys,
  which theorems assume as a `Nodup` hypothesis where it matters.
* I/O is modelled by an environment `Env` giving, for each 1-based
  attempt number, the outcome of that fetch attempt (network/parse
  failure, a failure while persisting one of the two files, or success
  with a payload) together with the current time, and by an explicit
  state `SysState` holding the in-memory config, the two on-disk files
  and the recurring-timer flag.
* Exceptions are modelled with `Except Unit`.
-/

set_option autoImplicit false

namespace LiveFleaPrices

/-- The config document (`config/config.json`): `nextUpdate` (epoch
seconds), `maxIncreaseMult`, `maxRetries` (read by `fetchPrices` as
`Mod.config.maxRetries`). -/
structure Config where
  nextUpdate : Int
  maxIncreaseMult : Rat
  maxRetries : Nat
deriving Repr, DecidableEq

/-- The parsed contents of a flat JSON record of prices, as an
association list. -/
abbrev PriceMap := List (String × Rat)

/-- One entry of `handbookTable.Items`. -/
structure HandbookItem where
  Id : String
  Price : Rat
deriving Repr, DecidableEq

/-- Outcome of one live fetch attempt, i.e. of one execution of the `try`
block of `fetchPrices`. The block performs, in order: the network fetch
and JSON parse, `writeFileSync` of `prices.json`, the in-memory
`Mod.config.nextUpdate` assignment, and `writeFileSync` of
`config.json`; it can throw at each I/O step. -/
inductive FetchOutcome where
  /-- `fetch` or `response.json()` throws: nothing was written. -/
  | fetchErr
  /-- The payload `p` was obtained but `writeFileSync(pricesPath, ...)`
  throws; no file changes. -/
  | writePricesErr (p : PriceMap)
  /-- The payload `p` was obtained and written to `prices.json`, the
  in-memory `nextUpdate` was set, but `writeFileSync(configPath, ...)`
  throws. -/
  | writeConfigErr (p : PriceMap)
  /-- The whole `try` block succeeds with payload `p`. -/
  | success (p : PriceMap)
deriving Repr, DecidableEq

/-- `true` iff the attempt outcome throws (is caught by the `catch`). -/
def FetchOutcome.isFail : FetchOutcome → Bool
  | .success _ => false
  | _ => true

/-- The external world: `outcome n` is what the `try` block of the
attempt with `retries = n` does, and `now n` is
`Math.floor(Date.now() / 1000)` during that attempt. -/
structure Env where
  outcome : Nat → FetchOutcome
  now : Nat → Int

/-- Mutable state touched by `fetchPrices`: the in-memory `Mod.config`,
the on-disk contents of `config.json` and `prices.json` (`none` =
`prices.json` does not exist), and whether the recurring update timer is
still registered (`clearInterval` sets it to `false`). -/
structure SysState where
  config : Config
  configFile : Config
  pricesFile : Option PriceMap
  timerActive : Bool
deriving Repr, DecidableEq

/-- Result of a `fetchPrices` call: the returned payload or the thrown
error, the state after the call, and how many live fetch attempts
(executions of the `try` block) were made. -/
structure FetchResult where
  result : Except Unit PriceMap
  st : SysState
  attempts : Nat

/-- State change caused by a *failed* attempt before its exception is
caught: `writeConfigErr` has already written `prices.json` and set the
in-memory `nextUpdate`; the other failures change nothing. -/
def failEffect (env : Env) (retries : Nat) : FetchOutcome → SysState → SysState
  | .writeConfigErr p, st =>
      { st with
        pricesFile := some p
        config := { st.config with nextUpdate := env.now retries + 3600 } }
  | _, st => st

/-- State after a *successful* attempt: `prices.json` holds the payload,
the in-memory `nextUpdate` is `now + 3600`, and `config.json` holds the
updated in-memory config. -/
def successEffect (env : Env) (retries : Nat) (p : PriceMap) (st : SysState) : SysState :=
  let cfg := { st.config with nextUpdate := env.now retries + 3600 }
  { st with pricesFile := some p, config := cfg, configFile := cfg }

/-- The retry loop of `fetchPrices` (the `try`/`catch` with the recursive
`Mod.fetchPrices(true, retries + 1)` call). `retries` is the 1-based
attempt counter of the source; recursion is made structural on `fuel`,
which the wrapper `fetchPrices` sets to `maxRetries + 1` so that it never
reaches `0`: the source recurses only while `retries ≤ maxRetries`, so at
most `maxRetries + 1` attempts happen. On failure with
`retries ≤ maxRetries` it retries; otherwise it cancels the timer
(`clearInterval(Mod.updateTimer)`) and rethrows. -/
def fetchGo (env : Env) (maxRetries : Nat) : Nat → Nat → SysState → FetchResult
  | 0, _retries, st => { result := .error (), st := st, attempts := 0 }
  | fuel + 1, retries, st =>
    match env.outcome retries with
    | .success p =>
        { result := .ok p, st := successEffect env retries p st, attempts := 1 }
    | f =>
        let st' := failEffect env retries f st
        if retries ≤ maxRetries then
          let r := fetchGo env maxRetries fuel (retries + 1) st'
          { r with attempts := r.attempts + 1 }
        else
          { result := .error (), st := { st' with timerActive := false }, attempts := 1 }

/-- `Mod.fetchPrices(fetchNow)` (`src/mod.ts` lines 45–85): a live fetch
runs if a fetch was requested or `prices.json` does not exist; otherwise
the file is read from disk and returned as-is, without network access or
writes. -/
def fetchPrices (env : Env) (fetchNow : Bool) (st : SysState) : FetchResult :=
  if fetchNow || st.pricesFile.isNone then
    fetchGo env st.config.maxRetries (st.config.maxRetries + 1) 1 st
  else
    { result := .ok (st.pricesFile.getD []), st := st, attempts := 0 }

/-- `handbookTable.Items.find(x => x.Id === itemId)?.Price ?? 0`. -/
def handbookFallback (handbookItems : List HandbookItem) (itemId : String) : Rat :=
  match handbookItems.find? (fun x => x.Id == itemId) with
  | some h => h.Price
  | none => 0

/-- Base-price resolution of `updatePrices` (lines 107–111):
`let basePrice = Mod.originalPrices[itemId]; if (!basePrice) basePrice =
handbookTable.Items.find(...)?.Price ?? 0`. JS truthiness: the handbook
fallback runs when the snapshot entry is absent (`undefined`) *or* zero. -/
def resolveBasePrice (originalPrices : String → Option Rat)
    (handbookItems : List HandbookItem) (itemId : String) : Rat :=
  match originalPrices itemId with
  | some p => if p = 0 then handbookFallback handbookItems itemId else p
  | none => handbookFallback handbookItems itemId

/-- Point update of a price table: `priceTable[itemId] = v`. -/
def setPrice (t : String → Option Rat) (k : String) (v : Rat) : String → Option Rat :=
  fun q => if q = k then some v else t q

/-- One iteration of the merge loop of `updatePrices` (lines 100–123) for
the entry `(itemId, fetchedValue)`: skip items absent from the item
table; otherwise write `fetchedValue` when `maxPrice ≠ 0 ∧ fetchedValue ≤
maxPrice`, else write `maxPrice`. -/
def applyFetchedPrice (maxIncreaseMult : Rat) (originalPrices : String → Option Rat)
    (itemTable : String → Bool) (handbookItems : List HandbookItem)
    (priceTable : String → Option Rat) (entry : String × Rat) : String → Option Rat :=
  if itemTable entry.1 then
    let basePrice := resolveBasePrice originalPrices handbookItems entry.1
    let maxPrice := basePrice * maxIncreaseMult
    if maxPrice ≠ 0 ∧ entry.2 ≤ maxPrice then
      setPrice priceTable entry.1 entry.2
    else
      setPrice priceTable entry.1 maxPrice
  else
    priceTable

/-- The whole merge loop (`for (const itemId in prices) { ... }`),
folded over the fetched payload. -/
def mergePrices (maxIncreaseMult : Rat) (originalPrices : String → Option Rat)
    (itemTable : String → Bool) (handbookItems : List HandbookItem)
    (priceTable : String → Option Rat) (fetched : PriceMap) : String → Option Rat :=
  fetched.foldl (applyFetchedPrice maxIncreaseMult originalPrices itemTable handbookItems)
    priceTable

/-- The host database tables `updatePrices` touches. -/
structure Tables where
  prices : String → Option Rat
  items : String → Bool
  handbookItems : List HandbookItem

/-- Result of `Mod.updatePrices`: the returned boolean or the propagated
exception, the host tables and state afterwards, and the number of live
fetch attempts made by the inner `fetchPrices` call. -/
structure UpdateResult where
  result : Except Unit Bool
  db : Tables
  st : SysState
  attempts : Nat

/-- `Mod.updatePrices` (lines 87–133). Its parameter (`prices`) is
ignored: line 97 overwrites it with `Mod.fetchPrices()`, whose defaulted
first argument makes every call from here a live fetch. A `fetchPrices`
exception propagates; otherwise the merge loop runs and `true` is
returned. -/
def updatePrices (env : Env) (pricesArg : Bool) (originalPrices : String → Option Rat)
    (db : Tables) (st : SysState) : UpdateResult :=
  let fr := fetchPrices env true st
  match fr.result with
  | .error e => { result := .error e, db := db, st := fr.st, attempts := fr.attempts }
  | .ok p =>
      { result := .ok true
        db := { db with
                prices := mergePrices fr.st.config.maxIncreaseMult originalPrices
                  db.items db.handbookItems db.prices p }
        st := fr.st
        attempts := fr.attempts }

/-- The scheduler's startup decision (lines 30–35):
`currentTime > Mod.config.nextUpdate`. -/
def schedulerForceFetch (currentTime : Int) (cfg : Config) : Bool :=
  currentTime > cfg.nextUpdate

/-- The startup merge cycle of `postDBLoadAsync` (line 37): it passes the
`schedulerForceFetch` decision to `updatePrices`, which ignores it. -/
def postDBLoadCycle (env : Env) (currentTime : Int) (originalPrices : String → Option Rat)
    (db : Tables) (st : SysState) : UpdateResult :=
  updatePrices env (schedulerForceFetch currentTime st.config) originalPrices db st

/-- The base-price resolution as the spec's words describe it (claim C2):
the PriceSnapshot entry is used whenever the item is *present* in the
snapshot; the handbook fallback runs only when it is absent. Kept only to
compare against `resolveBasePrice`, which embeds the source. -/
def resolveBasePriceSpec (originalPrices : String → Option Rat)
    (handbookItems : List HandbookItem) (itemId : String) : Rat :=
  match originalPrices itemId with
  | some p => p
  | none => handbookFallback handbookItems itemId

/-! ### Concrete fixtures used to evaluate the definitions -/

/-- A concrete system state: `maxRetries = 2`, no cached `prices.json`. -/
def stW : SysState :=
  { config := { nextUpdate := 1000, maxIncreaseMult := 3/2, maxRetries := 2 }
    configFile := { nextUpdate := 1000, maxIncreaseMult := 3/2, maxRetries := 2 }
    pricesFile := none
    timerActive := true }

/-- `stW` with a cached `prices.json` present on disk. -/
def stCacheW : SysState := { stW with pricesFile := some [("item1", 120)] }

/-- An environment in which every fetch attempt fails on the network. -/
def envFailW : Env := { outcome := fun _ => .fetchErr, now := fun _ => 5000 }

/-- An environment in which every attempt gets a payload but fails while
writing `prices.json`. -/
def envPersistFailW : Env :=
  { outcome := fun _ => .writePricesErr [("item1", 120)], now := fun _ => 5000 }

/-- An environment in which every fetch attempt succeeds. -/
def envOkW : Env := { outcome := fun _ => .success [("item1", 120)], now := fun _ => 5000 }

/-- A concrete fetched payload. -/
def fetchedW : PriceMap := [("item1", 200), ("item2", 120)]

/-- A fetched payload naming an item absent from the item table `itW`. -/
def fetchedUnknownW : PriceMap := [("item3", 50)]

/-- A concrete startup price snapshot. -/
def origW : String → Option Rat := fun k => if k = "item1" then some 100 else none

/-- A snapshot holding a zero price for `"a"` (present but falsy in JS). -/
def origZeroW : String → Option Rat := fun k => if k = "a" then some 0 else none

/-- A concrete item table containing `item1` and `item2` only. -/
def itW : String → Bool := fun k => k = "item1" || k = "item2"

/-- A concrete handbook table. -/
def hbW : List HandbookItem := [{ Id := "item2", Price := 80 }]

/-- A handbook table with an entry for `"a"`. -/
def hbZeroW : List HandbookItem := [{ Id := "a", Price := 50 }]

/-- A concrete host price table with no entries. -/
def ptW : String → Option Rat := fun _ => none

/-! ### Helper lemmas about the merge loop -/

theorem applyFetchedPrice_ne (m : Rat) (o : String → Option Rat) (it : String → Bool)
    (hb : List HandbookItem) (pt : String → Option Rat) (e : String × Rat) (id : String)
    (h : id ≠ e.1) :
    applyFetchedPrice m o it hb pt e id = pt id := by
  by_cases hc : it e.1
  · by_cases hc2 : resolveBasePrice o hb e.1 * m ≠ 0 ∧ e.2 ≤ resolveBasePrice o hb e.1 * m
    · simp [applyFetchedPrice, setPrice, hc, hc2, h]
    · simp only [applyFetchedPrice, setPrice, hc, if_true, if_neg hc2, if_neg h]
  · simp [applyFetchedPrice, hc]

theorem applyFetchedPrice_not_item (m : Rat) (o : String → Option Rat) (it : String → Bool)
    (hb : List HandbookItem) (pt : String → Option Rat) (e : String × Rat) (id : String)
    (hid : it id = false) :
    applyFetchedPrice m o it hb pt e id = pt id := by
  by_cases he : id = e.1
  · subst he
    simp [applyFetchedPrice, hid]
  · exact applyFetchedPrice_ne m o it hb pt e id he

theorem mergePrices_cons (m : Rat) (o : String → Option Rat) (it : String → Bool)
    (hb : List HandbookItem) (pt : String → Option Rat) (e : String × Rat) (t : PriceMap) :
    mergePrices m o it hb pt (e :: t) = mergePrices m o it hb (applyFetchedPrice m o it hb pt e) t :=
  rfl

theorem mergePrices_of_not_mem (m : Rat) (o : String → Option Rat) (it : String → Bool)
    (hb : List HandbookItem) :
    ∀ (fetched : PriceMap) (pt : String → Option Rat) (id : String),
      id ∉ fetched.map Prod.fst →
      mergePrices m o it hb pt fetched id = pt id := by
  intro fetched
  induction fetched with
  | nil => intro pt id _; rfl
  | cons e t ih =>
    intro pt id h
    simp only [List.map_cons, List.mem_cons, not_or] at h
    rw [mergePrices_cons, ih _ id h.2, applyFetchedPrice_ne m o it hb pt e id h.1]

theorem mergePrices_of_not_item (m : Rat) (o : String → Option Rat) (it : String → Bool)
    (hb : List HandbookItem) (id : String) (hid : it id = false) :
    ∀ (fetched : PriceMap) (pt : String → Option Rat),
      mergePrices m o it hb pt fetched id = pt id := by
  intro fetched
  induction fetched with
  | nil => intro pt; rfl
  | cons e t ih =>
    intro pt
    rw [mergePrices_cons, ih, applyFetchedPrice_not_item m o it hb pt e id hid]

theorem mergePrices_clamp_aux (m : Rat) (o : String → Option Rat) (it : String → Bool)
    (hb : List HandbookItem) :
    ∀ (fetched : PriceMap) (pt : String → Option Rat) (id : String) (v : Rat),
      (fetched.map Prod.fst).Nodup → (id, v) ∈ fetched → it id = true →
      mergePrices m o it hb pt fetched id =
        (if resolveBasePrice o hb id * m ≠ 0 ∧ v ≤ resolveBasePrice o hb id * m
         then some v else some (resolveBasePrice o hb id * m)) := by
  intro fetched
  induction fetched with
  | nil => intro pt id v _ hmem _; cases hmem
  | cons e t ih =>
    intro pt id v hnd hmem hit
    simp only [List.map_cons, List.nodup_cons] at hnd
    rcases List.mem_cons.mp hmem with heq | hmem'
    · have he1 : e.1 = id := by rw [← heq]
      rw [mergePrices_cons, mergePrices_of_not_mem m o it hb t _ id (he1 ▸ hnd.1)]
      rw [← heq]
      simp only [applyFetchedPrice, setPrice, hit, if_true]
      split <;> simp [setPrice]
    · exact mergePrices_cons m o it hb pt e t ▸ ih _ id v hnd.2 hmem' hit

/-! ### Helper lemmas about the fetch/retry loop -/

theorem fetchGo_success_step (env : Env) (maxRetries fuel retries : Nat) (st : SysState)
    (p : PriceMap) (ho : env.outcome retries = .success p) :
    fetchGo env maxRetries (fuel + 1) retries st =
      { result := .ok p, st := successEffect env retries p st, attempts := 1 } := by
  simp [fetchGo, ho]

theorem fetchGo_fail_step (env : Env) (maxRetries fuel retries : Nat) (st : SysState)
    (hf : (env.outcome retries).isFail = true) :
    fetchGo env maxRetries (fuel + 1) retries st =
      if retries ≤ maxRetries then
        let r := fetchGo env maxRetries fuel (retries + 1)
          (failEffect env retries (env.outcome retries) st)
        { r with attempts := r.attempts + 1 }
      else
        { result := .error ()
          st := { failEffect env retries (env.outcome retries) st with timerActive := false }
          attempts := 1 } := by
  cases ho : env.outcome retries with
  | success p => rw [ho] at hf; simp [FetchOutcome.isFail] at hf
  | fetchErr => simp [fetchGo, ho]
  | writePricesErr p => simp [fetchGo, ho]
  | writeConfigErr p => simp [fetchGo, ho]

theorem failEffect_maxIncreaseMult (env : Env) (retries : Nat) (f : FetchOutcome)
    (st : SysState) :
    (failEffect env retries f st).config.maxIncreaseMult = st.config.maxIncreaseMult := by
  cases f <;> rfl

theorem failEffect_maxRetries (env : Env) (retries : Nat) (f : FetchOutcome) (st : SysState) :
    (failEffect env retries f st).config.maxRetries = st.config.maxRetries := by
  cases f <;> rfl

theorem failEffect_timerActive (env : Env) (retries : Nat) (f : FetchOutcome) (st : SysState) :
    (failEffect env retries f st).timerActive = st.timerActive := by
  cases f <;> rfl

theorem fetchGo_attempts_pos (env : Env) (maxRetries fuel retries : Nat) (st : SysState)
    (h : 1 ≤ fuel) :
    1 ≤ (fetchGo env maxRetries fuel retries st).attempts := by
  obtain ⟨f, rfl⟩ : ∃ f, fuel = f + 1 := ⟨fuel - 1, by omega⟩
  by_cases hf : (env.outcome retries).isFail = true
  · rw [fetchGo_fail_step env maxRetries f retries st hf]
    split
    · dsimp only; omega
    · exact le_refl 1
  · obtain ⟨p, hp⟩ : ∃ p, env.outcome retries = .success p := by
      cases ho : env.outcome retries <;> rw [ho] at hf <;> simp [FetchOutcome.isFail] at hf
      exact ⟨_, rfl⟩
    rw [fetchGo_success_step env maxRetries f retries st p hp]

theorem fetchGo_all_fail (env : Env) (maxRetries : Nat)
    (hfail : ∀ i, (env.outcome i).isFail = true) :
    ∀ (fuel retries : Nat) (st : SysState), 1 ≤ fuel → retries + fuel = maxRetries + 2 →
      (fetchGo env maxRetries fuel retries st).result = .error () ∧
      (fetchGo env maxRetries fuel retries st).attempts = fuel ∧
      (fetchGo env maxRetries fuel retries st).st.timerActive = false := by
  intro fuel
  induction fuel with
  | zero => intro retries st h _; exact absurd h (by omega)
  | succ f ih =>
    intro retries st _ harith
    rw [fetchGo_fail_step env maxRetries f retries st (hfail retries)]
    by_cases hr : retries ≤ maxRetries
    · have h1 : 1 ≤ f := by omega
      have h2 : (retries + 1) + f = maxRetries + 2 := by omega
      have hrec := ih (retries + 1) (failEffect env retries (env.outcome retries) st) h1 h2
      rw [if_pos hr]
      refine ⟨?_, ?_, ?_⟩ <;> dsimp only
      · exact hrec.1
      · rw [hrec.2.1]
      · exact hrec.2.2
    · have hf0 : f = 0 := by omega
      rw [if_neg hr]
      exact ⟨rfl, by rw [hf0], rfl⟩

theorem fetchGo_reaches_success (env : Env) (maxRetries : Nat) :
    ∀ (fuel retries : Nat) (st : SysState), retries + fuel = maxRetries + 2 →
      (∃ k, retries ≤ k ∧ k ≤ maxRetries + 1 ∧ (env.outcome k).isFail = false) →
      ∃ p, (fetchGo env maxRetries fuel retries st).result = .ok p := by
  intro fuel
  induction fuel with
  | zero =>
    intro retries st harith hex
    obtain ⟨k, hk1, hk2, _⟩ := hex
    exact absurd hk1 (by omega)
  | succ f ih =>
    intro retries st harith hex
    obtain ⟨k, hk1, hk2, hk3⟩ := hex
    by_cases hf : (env.outcome retries).isFail = true
    · have hne : retries ≠ k := by
        intro h
        rw [h, hk3] at hf
        cases hf
      have hr : retries ≤ maxRetries := by omega
      rw [fetchGo_fail_step env maxRetries f retries st hf]
      rw [if_pos hr]
      obtain ⟨p, hp⟩ := ih (retries + 1) (failEffect env retries (env.outcome retries) st)
        (by omega) ⟨k, by omega, hk2, hk3⟩
      exact ⟨p, by dsimp only; rw [hp]⟩
    · obtain ⟨p, hp⟩ : ∃ p, env.outcome retries = .success p := by
        cases ho : env.outcome retries <;> rw [ho] at hf <;> simp [FetchOutcome.isFail] at hf
        exact ⟨_, rfl⟩
      exact ⟨p, by rw [fetchGo_success_step env maxRetries f retries st p hp]⟩

theorem fetchGo_first_success (env : Env) (maxRetries k : Nat) (p : PriceMap)
    (hk2 : k ≤ maxRetries + 1) (hsucc : env.outcome k = .success p) :
    ∀ (fuel retries : Nat) (st : SysState), retries + fuel = maxRetries + 2 → retries ≤ k →
      (∀ j, retries ≤ j → j < k → (env.outcome j).isFail = true) →
      (fetchGo env maxRetries fuel retries st).result = .ok p ∧
      (fetchGo env maxRetries fuel retries st).st.pricesFile = some p ∧
      (fetchGo env maxRetries fuel retries st).st.config.nextUpdate = env.now k + 3600 ∧
      (fetchGo env maxRetries fuel retries st).st.config.maxIncreaseMult
        = st.config.maxIncreaseMult ∧
      (fetchGo env maxRetries fuel retries st).st.config.maxRetries
        = st.config.maxRetries ∧
      (fetchGo env maxRetries fuel retries st).st.configFile
        = (fetchGo env maxRetries fuel retries st).st.config ∧
      (fetchGo env maxRetries fuel retries st).st.timerActive = st.timerActive ∧
      (fetchGo env maxRetries fuel retries st).attempts = k + 1 - retries := by
  intro fuel
  induction fuel with
  | zero => intro retries st harith hle _; exact absurd hle (by omega)
  | succ f ih =>
    intro retries st harith hle hpre
    by_cases hrk : retries = k
    · subst hrk
      rw [fetchGo_success_step env maxRetries f retries st p hsucc]
      refine ⟨rfl, rfl, rfl, rfl, rfl, rfl, rfl, by dsimp only; omega⟩
    · have hf : (env.outcome retries).isFail = true := hpre retries (le_refl _) (by omega)
      have hr : retries ≤ maxRetries := by omega
      rw [fetchGo_fail_step env maxRetries f retries st hf]
      rw [if_pos hr]
      dsimp only
      have hrec := ih (retries + 1) (failEffect env retries (env.outcome retries) st)
        (by omega) (by omega) (fun j hj1 hj2 => hpre j (by omega) hj2)
      refine ⟨hrec.1, hrec.2.1, hrec.2.2.1, ?_, ?_, hrec.2.2.2.2.2.1, ?_, ?_⟩
      · rw [hrec.2.2.2.1, failEffect_maxIncreaseMult]
      · rw [hrec.2.2.2.2.1, failEffect_maxRetries]
      · rw [hrec.2.2.2.2.2.2.1, failEffect_timerActive]
      · rw [hrec.2.2.2.2.2.2.2]
        omega

theorem fetchPrices_live (env : Env) (st : SysState) :
    fetchPrices env true st = fetchGo env st.config.maxRetries (st.config.maxRetries + 1) 1 st := by
  simp [fetchPrices]

/-! ### Claim theorems -/

/-- C1: after a merge cycle, for every item identifier present both in the
fetched payload and in the host item table, with `basePrice` the resolved
base price and `maxPrice = basePrice * maxIncreaseMult`, the host price
table entry equals the fetched value when `maxPrice` is nonzero and the
fetched value is at most `maxPrice`, and equals `maxPrice` otherwise
(including `maxPrice = 0`, which zeroes the item's price). -/
theorem merge_cycle_clamps (m : Rat) (o : String → Option Rat) (it : String → Bool)
    (hb : List HandbookItem) (pt : String → Option Rat) (fetched : PriceMap)
    (id : String) (v : Rat)
    (hnd : (fetched.map Prod.fst).Nodup) (hmem : (id, v) ∈ fetched) (hit : it id = true) :
    mergePrices m o it hb pt fetched id =
      (if resolveBasePrice o hb id * m ≠ 0 ∧ v ≤ resolveBasePrice o hb id * m
       then some v else some (resolveBasePrice o hb id * m)) :=
  mergePrices_clamp_aux m o it hb fetched pt id v hnd hmem hit

/-- C1 witness: base price 100, multiplier `3/2`, fetched value 200 is
clamped to 150. -/
theorem merge_cycle_clamps_w :
    mergePrices (3/2) origW itW hbW ptW fetchedW "item1" = some 150 := by
  rw [merge_cycle_clamps (3/2) origW itW hbW ptW fetchedW "item1" 200 (by decide) (by decide)
    (by decide)]
  norm_num [resolveBasePrice, origW]

/-- C2 counterexample: the snapshot holds price `0` for `"a"` (so the item
is *present* in the snapshot), yet the code's resolution returns the
handbook price `50`, not the snapshot value: the JS falsy test
`if (!basePrice)` also triggers the handbook fallback on a zero snapshot
entry, not only on an absent one as the claim states. -/
theorem resolveBasePrice_spec_mismatch :
    origZeroW "a" = some 0 ∧
    resolveBasePriceSpec origZeroW hbZeroW "a" = 0 ∧
    resolveBasePrice origZeroW hbZeroW "a" = 50 ∧
    resolveBasePrice origZeroW hbZeroW "a" ≠ resolveBasePriceSpec origZeroW hbZeroW "a" := by
  refine ⟨by decide, by decide, by decide, by decide⟩

/-- C2 (amended): `basePrice` is the snapshot entry when it is present and
nonzero; when the snapshot entry is absent *or zero*, it is the handbook
entry's `Price` for the item if one exists, and `0` otherwise. -/
theorem resolveBasePrice_resolution (o : String → Option Rat) (hb : List HandbookItem)
    (id : String) :
    (∀ p, o id = some p → p ≠ 0 → resolveBasePrice o hb id = p) ∧
    ((o id = none ∨ o id = some 0) →
      ((∃ h, hb.find? (fun x => x.Id == id) = some h ∧ resolveBasePrice o hb id = h.Price) ∨
       (hb.find? (fun x => x.Id == id) = none ∧ resolveBasePrice o hb id = 0))) := by
  constructor
  · intro p hp hp0
    simp [resolveBasePrice, hp, hp0]
  · intro h
    have he : resolveBasePrice o hb id = handbookFallback hb id := by
      rcases h with h | h <;> simp [resolveBasePrice, h]
    rw [he]
    unfold handbookFallback
    cases hf : hb.find? (fun x => x.Id == id) with
    | some hh => exact Or.inl ⟨hh, rfl, rfl⟩
    | none => exact Or.inr ⟨rfl, rfl⟩

/-- C2 witness: a present, nonzero snapshot entry is used as-is. -/
theorem resolveBasePrice_resolution_w :
    resolveBasePrice origW hbW "item1" = 100 :=
  (resolveBasePrice_resolution origW hbW "item1").1 100 (by decide) (by decide)

/-- C3: with `maxRetries = N`, if every attempt fails then `fetchPrices`
makes exactly `N + 1` attempts, cancels the recurring timer, and
propagates the failure; if some attempt among the first `N + 1` succeeds,
no error is propagated. -/
theorem fetchPrices_retry_exhaustion (env : Env) (st : SysState) (N : Nat)
    (hN : st.config.maxRetries = N) :
    ((∀ i, (env.outcome i).isFail = true) →
      (fetchPrices env true st).result = .error () ∧
      (fetchPrices env true st).attempts = N + 1 ∧
      (fetchPrices env true st).st.timerActive = false) ∧
    ((∃ k, 1 ≤ k ∧ k ≤ N + 1 ∧ (env.outcome k).isFail = false) →
      ∃ p, (fetchPrices env true st).result = .ok p) := by
  subst hN
  constructor
  · intro hfail
    rw [fetchPrices_live]
    exact fetchGo_all_fail env st.config.maxRetries hfail (st.config.maxRetries + 1) 1 st
      (by omega) (by omega)
  · intro hex
    rw [fetchPrices_live]
    exact fetchGo_reaches_success env st.config.maxRetries (st.config.maxRetries + 1) 1 st
      (by omega) hex

/-- C3 witness: `maxRetries = 2` and every attempt failing gives exactly 3
attempts, a propagated error, and a cancelled timer. -/
theorem fetchPrices_retry_exhaustion_w :
    (fetchPrices envFailW true stW).result = .error () ∧
    (fetchPrices envFailW true stW).attempts = 3 ∧
    (fetchPrices envFailW true stW).st.timerActive = false :=
  (fetchPrices_retry_exhaustion envFailW stW 2 rfl).1 (fun _ => rfl)

/-- C4: an item absent from the host item table is never written by the
merge cycle: its host price table entry is unchanged, whatever the
fetched payload contains. -/
theorem merge_cycle_skips_unknown_items (m : Rat) (o : String → Option Rat)
    (it : String → Bool) (hb : List HandbookItem) (pt : String → Option Rat)
    (fetched : PriceMap) (id : String) (hid : it id = false) :
    mergePrices m o it hb pt fetched id = pt id :=
  mergePrices_of_not_item m o it hb id hid fetched pt

/-- C4 witness: `item3` is fetched but not in the item table, so its price
entry stays untouched. -/
theorem merge_cycle_skips_unknown_items_w :
    mergePrices (3/2) origW itW hbW ptW fetchedUnknownW "item3" = ptW "item3" :=
  merge_cycle_skips_unknown_items (3/2) origW itW hbW ptW fetchedUnknownW "item3" (by decide)

/-- C5: when live-fetch attempt `k` succeeds with payload `p` (after only
failed attempts before it), `fetchPrices` returns `p`, `prices.json` is
overwritten with exactly `p`, the config's `nextUpdate` becomes
`now + 3600`, and the config is persisted to the config file. -/
theorem fetchPrices_success_persists (env : Env) (st : SysState) (k : Nat) (p : PriceMap)
    (hk1 : 1 ≤ k) (hk2 : k ≤ st.config.maxRetries + 1)
    (hpre : ∀ j, 1 ≤ j → j < k → (env.outcome j).isFail = true)
    (hsucc : env.outcome k = .success p) :
    (fetchPrices env true st).result = .ok p ∧
    (fetchPrices env true st).st.pricesFile = some p ∧
    (fetchPrices env true st).st.config.nextUpdate = env.now k + 3600 ∧
    (fetchPrices env true st).st.configFile = (fetchPrices env true st).st.config := by
  rw [fetchPrices_live]
  have h := fetchGo_first_success env st.config.maxRetries k p hk2 hsucc
    (st.config.maxRetries + 1) 1 st (by omega) hk1 hpre
  exact ⟨h.1, h.2.1, h.2.2.1, h.2.2.2.2.2.1⟩

/-- C5 witness: a first-attempt success persists the payload and the
updated config. -/
theorem fetchPrices_success_persists_w :
    (fetchPrices envOkW true stW).result = .ok [("item1", 120)] ∧
    (fetchPrices envOkW true stW).st.pricesFile = some [("item1", 120)] ∧
    (fetchPrices envOkW true stW).st.config.nextUpdate = envOkW.now 1 + 3600 ∧
    (fetchPrices envOkW true stW).st.configFile = (fetchPrices envOkW true stW).st.config :=
  fetchPrices_success_persists envOkW stW 1 [("item1", 120)] (le_refl 1) (by decide)
    (fun j hj1 hj2 => absurd (Nat.lt_of_le_of_lt hj1 hj2) (Nat.lt_irrefl 1)) rfl

/-- C6: a `fetchPrices` call without a live-fetch request, with the price
cache file present, makes no network attempt, changes no state, and
returns exactly the parsed cache contents. -/
theorem fetchPrices_cached (env : Env) (st : SysState) (p : PriceMap)
    (h : st.pricesFile = some p) :
    fetchPrices env false st = { result := .ok p, st := st, attempts := 0 } := by
  simp [fetchPrices, h]

/-- C6 witness: with a cached file and no forced fetch, the cached mapping
comes back untouched. -/
theorem fetchPrices_cached_w :
    fetchPrices envFailW false stCacheW =
      { result := .ok [("item1", 120)], st := stCacheW, attempts := 0 } :=
  fetchPrices_cached envFailW stCacheW [("item1", 120)] rfl

/-- C7: the top-level merge cycle ignores the scheduler's `forceFetch`
decision — its result is the same for every value of the flag — and it
always makes at least one live fetch attempt. -/
theorem cycle_always_requests_live_fetch (env : Env) (currentTime : Int)
    (originalPrices : String → Option Rat) (db : Tables) (st : SysState) :
    (∀ b, postDBLoadCycle env currentTime originalPrices db st
        = updatePrices env b originalPrices db st) ∧
    1 ≤ (postDBLoadCycle env currentTime originalPrices db st).attempts := by
  constructor
  · intro b
    rfl
  · have ha : (postDBLoadCycle env currentTime originalPrices db st).attempts
        = (fetchPrices env true st).attempts := by
      unfold postDBLoadCycle updatePrices
      dsimp only
      cases h : (fetchPrices env true st).result <;> simp
    rw [ha, fetchPrices_live]
    exact fetchGo_attempts_pos env st.config.maxRetries (st.config.maxRetries + 1) 1 st
      (by omega)

/-- C8: whenever the merge cycle terminates normally its value is `true`;
the only other behaviour is propagating the Fetcher's exception. -/
theorem updatePrices_returns_true (env : Env) (b : Bool) (originalPrices : String → Option Rat)
    (db : Tables) (st : SysState) :
    (updatePrices env b originalPrices db st).result = .error () ∨
    (updatePrices env b originalPrices db st).result = .ok true := by
  unfold updatePrices
  dsimp only
  cases h : (fetchPrices env true st).result with
  | error e => cases e; exact Or.inl (by simp [h])
  | ok p => exact Or.inr (by simp [h])

/-- C9: the merge loop iterates only over the keys of the fetched payload,
so the host price table entry of any identifier outside it is unchanged. -/
theorem merge_cycle_untouched_outside_fetched (m : Rat) (o : String → Option Rat)
    (it : String → Bool) (hb : List HandbookItem) (pt : String → Option Rat)
    (fetched : PriceMap) (id : String) (h : id ∉ fetched.map Prod.fst) :
    mergePrices m o it hb pt fetched id = pt id :=
  mergePrices_of_not_mem m o it hb fetched pt id h

/-- C9 witness: an identifier not in the fetched payload keeps its old
price entry. -/
theorem merge_cycle_untouched_outside_fetched_w :
    mergePrices (3/2) origW itW hbW ptW fetchedW "other" = ptW "other" :=
  merge_cycle_untouched_outside_fetched (3/2) origW itW hbW ptW fetchedW "other" (by decide)

/-- C10: a failure while persisting `prices.json` or `config.json` after a
successful network fetch is caught by the same handler as network
failures: each such failure counts against `maxRetries` and triggers a
full re-fetch, and after exhaustion the timer is cancelled and the error
propagates, exactly like a fetch error. -/
theorem fetchPrices_persist_failure_like_fetch_error (env : Env) (st : SysState) (N : Nat)
    (ps : Nat → PriceMap) (hN : st.config.maxRetries = N) :
    ((∀ i, env.outcome i = .writePricesErr (ps i) ∨ env.outcome i = .writeConfigErr (ps i)) →
      (fetchPrices env true st).result = .error () ∧
      (fetchPrices env true st).attempts = N + 1 ∧
      (fetchPrices env true st).st.timerActive = false) ∧
    (∀ p, env.outcome 1 = .writeConfigErr (ps 1) → env.outcome 2 = .success p → 1 ≤ N →
      (fetchPrices env true st).result = .ok p ∧
      (fetchPrices env true st).attempts = 2) := by
  subst hN
  constructor
  · intro h
    have hfail : ∀ i, (env.outcome i).isFail = true := by
      intro i
      rcases h i with h1 | h1 <;> rw [h1] <;> rfl
    rw [fetchPrices_live]
    exact fetchGo_all_fail env st.config.maxRetries hfail (st.config.maxRetries + 1) 1 st
      (by omega) (by omega)
  · intro p h1 h2 hNpos
    have hpre : ∀ j, 1 ≤ j → j < 2 → (env.outcome j).isFail = true := by
      intro j hj1 hj2
      have hj : j = 1 := by omega
      rw [hj, h1]
      rfl
    have h := fetchGo_first_success env st.config.maxRetries 2 p (by omega) h2
      (st.config.maxRetries + 1) 1 st (by omega) (by omega) hpre
    rw [fetchPrices_live]
    exact ⟨h.1, by rw [h.2.2.2.2.2.2.2]⟩

/-- C10 witness: persisting failures on every attempt with `maxRetries =
2` behave exactly like network failures: 3 attempts, error, timer off. -/
theorem fetchPrices_persist_failure_like_fetch_error_w :
    (fetchPrices envPersistFailW true stW).result = .error () ∧
    (fetchPrices envPersistFailW true stW).attempts = 3 ∧
    (fetchPrices envPersistFailW true stW).st.timerActive = false :=
  (fetchPrices_persist_failure_like_fetch_error envPersistFailW stW 2
    (fun _ => [("item1", 120)]) rfl).1 (fun _ => Or.inl rfl)

end LiveFleaPrices
